import Mathlib

/-!
Shallow embedding of `src/main.py`, a Telegram presence bot: a SQLite-backed
store of daily member-count snapshots and join/leave counters, two admin-gated
command handlers (`start`, `stats`), a chat-member event listener, and a daily
report job.  Dates and counter keys are modelled as `String` (the SQLite
columns are TEXT with binary collation, which on ASCII ISO dates coincides with
Lean's lexicographic `String` order); counts are `Int` (SQLite INTEGER).
A table is a list of rows; handler side effects are recorded as an explicit
trace of `Effect`s.
-/

namespace PresenceBot

/-- A row of either table: `daily_stats(date TEXT, member_count INTEGER)` or
`counters(key TEXT, value INTEGER)`. -/
abbrev Row := String × Int

/-- Observable side effects of a handler: store writes/reads, outbound
messages, and log lines. -/
inductive Effect where
  | dbWrite (table : String) : Effect
  | dbRead (table : String) : Effect
  | send (text : String) : Effect
  | logMsg (text : String) : Effect
deriving DecidableEq

/-- The persistent state: the `daily_stats` table and the `counters` table. -/
structure DB where
  snaps : List Row
  counters : List Row
deriving DecidableEq

/-- One `INSERT OR IGNORE INTO counters(key, value) VALUES (?, 0)` statement
(main.py line 52): insert only when no row with that key exists. -/
def insert_or_ignore (st : List Row) (k : String) (v : Int) : List Row :=
  if st.any (fun r => r.1 == k) then st else st ++ [(k, v)]

/-- Function `init_db` (main.py lines 37-52), restricted to its row-level effect: the
CREATE TABLE IF NOT EXISTS statements change no rows; the loop seeds the two
counters `joins` and `leaves` at 0 when absent. -/
def init_counters (st : List Row) : List Row :=
  insert_or_ignore (insert_or_ignore st "joins" 0) "leaves" 0

/-- Function `set_daily_count` (main.py lines 55-57):
`INSERT OR REPLACE INTO daily_stats(date, member_count) VALUES(?,?)`.
SQLite's OR REPLACE deletes the conflicting row (same primary-key date) and
inserts the new one. -/
def set_daily_count (st : List Row) (d : String) (c : Int) : List Row :=
  st.filter (fun r => r.1 != d) ++ [(d, c)]

/-- Lexicographic ≤ on character lists: the order SQLite's binary collation
gives TEXT values (byte-wise comparison, which on the ASCII ISO dates stored
here coincides with code-point order). -/
def lexLe : List Char → List Char → Bool
  | [], _ => true
  | _ :: _, [] => false
  | a :: as, b :: bs => if a = b then lexLe as bs else decide (a < b)

/-- TEXT comparison of two date strings under binary collation. -/
def strLe (a b : String) : Bool := lexLe a.data b.data

/-- The descending-date order used by
`SELECT ... ORDER BY date DESC` (main.py line 62). -/
def dateDesc (a b : Row) : Prop := strLe b.1 a.1 = true

instance : DecidableRel dateDesc :=
  fun a b => inferInstanceAs (Decidable (strLe b.1 a.1 = true))

/-- Function `get_last_two_days` (main.py lines 60-63):
`SELECT date, member_count FROM daily_stats ORDER BY date DESC LIMIT 2`. -/
def get_last_two_days (st : List Row) : List Row :=
  (st.insertionSort dateDesc).take 2

/-- Function `bump_counter` (main.py lines 66-68):
`UPDATE counters SET value = value + ? WHERE key = ?`.
Rows matching the key get `delta` added; rows not matching (including the case
of an unknown key, where nothing matches) are untouched, and no error is
signalled either way. -/
def bump_counter (st : List Row) (key : String) (delta : Int) : List Row :=
  st.map (fun r => if r.1 == key then (r.1, r.2 + delta) else r)

/-- Value of a key in a counters table, with the Python dict-read default
`c.get(key, 0)` (main.py line 129). -/
def lookupVal (st : List Row) (k : String) : Int :=
  ((st.find? (fun r => r.1 == k)).map Prod.snd).getD 0

/-- The admin gate shared by `start` and `stats` (main.py lines 96 and 112):
`if update.effective_user and update.effective_user.id != ADMIN_ID: return`.
A `User` object is always truthy, so the handler returns early exactly when a
sender identity is present and differs from `ADMIN_ID`. -/
def gate_blocks (effUser : Option Int) (adminId : Int) : Bool :=
  match effUser with
  | some uid => uid != adminId
  | none => false

/-- The chat information the handlers obtain from `bot.get_chat`. -/
structure Chat where
  title : String
  type : String
deriving DecidableEq

/-- The chat-kind label computed in `start` (main.py line 101). -/
def chat_kind (t : String) : String :=
  if t == "channel" then "канал"
  else if t == "group" || t == "supergroup" then "группа"
  else t

/-- Two-digit rendering of the report hour, as Python's `{REPORT_HOUR:02d}`. -/
def two_digit (n : Nat) : String :=
  if n < 10 then "0" ++ toString n else toString n

/-- The confirmation text of `start` (main.py lines 102-106). -/
def start_reply (chat : Chat) (reportHour : Nat) (tz : String) : String :=
  "✅ Бот запущен.\nМониторинг: <b>" ++ chat.title ++ "</b> (" ++ chat_kind chat.type
    ++ ")\nОтчёт ежедневно в " ++ two_digit reportHour ++ ":00 (" ++ tz ++ ")."

/-- The `start` command handler (main.py lines 95-108).  `chatRes` stands for
the outcome of the awaited `bot.get_chat` call: `.ok` a chat, `.error` the
text of the raised exception. -/
def start (db : DB) (effUser : Option Int) (adminId : Int)
    (chatRes : Except String Chat) (reportHour : Nat) (tz : String) :
    DB × List Effect :=
  if gate_blocks effUser adminId then (db, [])
  else
    match chatRes with
    | .ok chat => (db, [.send (start_reply chat reportHour tz)])
    | .error e => (db, [.send ("⚠️ Не удалось получить чат: " ++ e)])

/-- The delta computation inside `stats` (main.py lines 116-122): defined only
when the first (most recent) row's date equals `today` and a second row
exists, in which case it is first count minus second count. -/
def stats_delta (rows : List Row) (today : String) : Option Int :=
  match rows with
  | [] => none
  | (d, c) :: rest =>
    if d == today then
      match rest with
      | [] => none
      | (_, p) :: _ => some (c - p)
    else none

/-- The sign glyph of `stats` (main.py line 125):
`sign = "➕" if delta > 0 else ("➖" if delta < 0 else "➖")`. -/
def sign_glyph (delta : Int) : String :=
  if delta > 0 then "➕" else if delta < 0 then "➖" else "➖"

/-- The sign glyph of `daily_job` (main.py line 165):
`sign = "➕" if (delta or 0) > 0 else ("➖" if (delta or 0) < 0 else "➖")`;
Python's `delta or 0` is `0` when `delta` is `None` (and when it is `0`). -/
def daily_sign (delta : Option Int) : String :=
  if delta.getD 0 > 0 then "➕" else if delta.getD 0 < 0 then "➖" else "➖"

/-- The reply text of `stats` (main.py lines 123-129). -/
def stats_msg (count : Int) (delta : Option Int) (counters : List Row) : String :=
  let base := "📊 Текущие участники: <b>" ++ toString count ++ "</b>"
  let base :=
    match delta with
    | none => base
    | some d => base ++ "  (" ++ sign_glyph d ++ toString d.natAbs ++ " за день)"
  match counters with
  | [] => base
  | _ => base ++ "\nJoins (события): " ++ toString (lookupVal counters "joins")
      ++ ", Leaves: " ++ toString (lookupVal counters "leaves")

/-- The `stats` command handler (main.py lines 111-132).  `fetch` stands for
the outcome of `fetch_member_count`; when it raises, the reads of the two
tables never happen and the `except` branch replies with the error text. -/
def stats (db : DB) (effUser : Option Int) (adminId : Int)
    (fetch : Except String Int) (today : String) : DB × List Effect :=
  if gate_blocks effUser adminId then (db, [])
  else
    match fetch with
    | .error e => (db, [.send ("Ошибка: " ++ e)])
    | .ok count =>
      let rows := get_last_two_days db.snaps
      let delta := stats_delta rows today
      (db, [.dbRead "daily_stats", .dbRead "counters",
            .send (stats_msg count delta db.counters)])

/-- The join condition of `on_chat_member` (main.py line 145):
`str(old_status) in ("left", "kicked") and str(new_status) in ("member", "administrator")`. -/
def is_join (oldS newS : String) : Bool :=
  (oldS == "left" || oldS == "kicked") && (newS == "member" || newS == "administrator")

/-- The leave condition of `on_chat_member` (main.py line 147):
`str(old_status) in ("member", "administrator") and str(new_status) in ("left", "kicked")`. -/
def is_leave (oldS newS : String) : Bool :=
  (oldS == "member" || oldS == "administrator") && (newS == "left" || newS == "kicked")

/-- The chat-member event listener (main.py lines 138-150).  `chatMember` is
`update.chat_member` reduced to its (old status, new status) pair, `none` when
absent.  The two `if` statements are evaluated in sequence, both against the
same notification. -/
def on_chat_member (db : DB) (chatMember : Option (String × String)) : DB :=
  match chatMember with
  | none => db
  | some (oldS, newS) =>
    let c1 := if is_join oldS newS then bump_counter db.counters "joins" 1 else db.counters
    let c2 := if is_leave oldS newS then bump_counter c1 "leaves" 1 else c1
    { db with counters := c2 }

/-- The daily report text of `daily_job` (main.py lines 165-171). -/
def daily_msg (today : String) (reportHour : Nat) (tz : String)
    (count : Int) (delta : Option Int) : String :=
  let sign := daily_sign delta
  let base := "🗓️ " ++ today ++ " " ++ two_digit reportHour ++ ":00 " ++ tz
    ++ "\n👥 Участники: <b>" ++ toString count ++ "</b>"
  match delta with
  | none => base
  | some d => base ++ "  (" ++ sign ++ toString d.natAbs ++ " за день)"

/-- The daily job (main.py lines 156-174).  `fetch` stands for the outcome of
`fetch_member_count`; when it raises, the surrounding `try` caught nothing but
the date computation yet, so the `except` branch only logs.  On success the
job upserts today's snapshot, re-reads the last two rows, computes the delta
(main.py lines 162-164) and messages the admin. -/
def daily_job (db : DB) (fetch : Except String Int) (today : String)
    (reportHour : Nat) (tz : String) : DB × List Effect :=
  match fetch with
  | .error e => (db, [.logMsg ("Daily job failed: " ++ e)])
  | .ok count =>
    let snaps := set_daily_count db.snaps today count
    let rows := get_last_two_days snaps
    let delta :=
      match rows with
      | (d0, c0) :: (_, c1) :: _ => if d0 == today then some (c0 - c1) else none
      | _ => none
    ({ db with snaps := snaps },
     [.dbWrite "daily_stats", .dbRead "daily_stats",
      .send (daily_msg today reportHour tz count delta)])

/-- The operations the running system performs against the stores: startup
initialization, one chat-member notification, one `start` or `stats` command,
one firing of the daily job. -/
inductive Op where
  | initOp : Op
  | chatMemberOp (cm : Option (String × String)) : Op
  | startOp (effUser : Option Int) (chatRes : Except String Chat) : Op
  | statsOp (effUser : Option Int) (fetch : Except String Int) (today : String) : Op
  | dailyOp (fetch : Except String Int) (today : String) : Op

/-- State transition of one system operation. -/
def applyOp (adminId : Int) (reportHour : Nat) (tz : String) (db : DB) : Op → DB
  | .initOp => { db with counters := init_counters db.counters }
  | .chatMemberOp cm => on_chat_member db cm
  | .startOp eu res => (start db eu adminId res reportHour tz).1
  | .statsOp eu f t => (stats db eu adminId f t).1
  | .dailyOp f t => (daily_job db f t reportHour tz).1

/-! Helper lemmas about the store operations, shared by the claim theorems. -/

theorem lexLe_total : ∀ l₁ l₂ : List Char, lexLe l₁ l₂ = true ∨ lexLe l₂ l₁ = true
  | [], _ => Or.inl rfl
  | _ :: _, [] => Or.inr rfl
  | a :: as, b :: bs => by
    by_cases hab : a = b
    · subst hab
      simpa [lexLe] using lexLe_total as bs
    · rcases lt_or_gt_of_ne hab with h | h
      · exact Or.inl (by simp [lexLe, hab, h])
      · exact Or.inr (by simp [lexLe, Ne.symm hab, h])

theorem lexLe_trans : ∀ l₁ l₂ l₃ : List Char,
    lexLe l₁ l₂ = true → lexLe l₂ l₃ = true → lexLe l₁ l₃ = true
  | [], _, _, _, _ => rfl
  | _ :: _, [], _, h₁, _ => by simp [lexLe] at h₁
  | _ :: _, _ :: _, [], _, h₂ => by simp [lexLe] at h₂
  | a :: as, b :: bs, c :: cs, h₁, h₂ => by
    by_cases hab : a = b <;> by_cases hbc : b = c
    · subst hab; subst hbc
      simp only [lexLe, if_pos rfl] at h₁ h₂ ⊢
      exact lexLe_trans as bs cs h₁ h₂
    · subst hab
      simp only [lexLe, if_neg hbc, decide_eq_true_eq] at h₂
      simp [lexLe, hbc, h₂]
    · subst hbc
      simp only [lexLe, if_neg hab, decide_eq_true_eq] at h₁
      simp [lexLe, hab, h₁]
    · simp only [lexLe, if_neg hab, if_neg hbc, decide_eq_true_eq] at h₁ h₂
      have hac : a < c := lt_trans h₁ h₂
      simp [lexLe, ne_of_lt hac, hac]

theorem dateDesc_total (a b : Row) : dateDesc a b ∨ dateDesc b a :=
  lexLe_total b.1.data a.1.data

theorem dateDesc_trans (a b c : Row) (hab : dateDesc a b) (hbc : dateDesc b c) :
    dateDesc a c :=
  lexLe_trans _ _ _ hbc hab

theorem bump_of_not_mem (st : List Row) (k : String) (δ : Int)
    (h : k ∉ st.map Prod.fst) : bump_counter st k δ = st := by
  induction st with
  | nil => rfl
  | cons a t ih =>
    simp only [List.map_cons, List.mem_cons, not_or] at h
    have ha : (a.1 == k) = false := by
      simp only [beq_eq_false_iff_ne, ne_eq]
      exact fun e => h.1 e.symm
    simp only [bump_counter, List.map_cons, ha, Bool.false_eq_true, if_false]
    simpa [bump_counter] using ih h.2

theorem bump_cons (a : Row) (t : List Row) (k : String) (δ : Int) :
    bump_counter (a :: t) k δ =
      (if a.1 == k then (a.1, a.2 + δ) else a) :: bump_counter t k δ := rfl

theorem lookup_cons_pos (a : Row) (t : List Row) (k : String)
    (h : (a.1 == k) = true) : lookupVal (a :: t) k = a.2 := by
  simp [lookupVal, List.find?_cons_of_pos, h]

theorem lookup_cons_neg (a : Row) (t : List Row) (k : String)
    (h : (a.1 == k) = false) : lookupVal (a :: t) k = lookupVal t k := by
  simp [lookupVal, List.find?_cons_of_neg, h]

theorem bump_lookup_self (st : List Row) (k : String) (δ : Int)
    (h : k ∈ st.map Prod.fst) : lookupVal (bump_counter st k δ) k = lookupVal st k + δ := by
  induction st with
  | nil => simp at h
  | cons a t ih =>
    by_cases ha : a.1 = k
    · have h1 : (a.1 == k) = true := by simpa using ha
      rw [bump_cons, if_pos h1, lookup_cons_pos _ _ _ h1,
        lookup_cons_pos (a.1, a.2 + δ) (bump_counter t k δ) k h1]
    · have h1 : (a.1 == k) = false := by simpa using ha
      simp only [List.map_cons, List.mem_cons] at h
      rcases h with h | h
      · exact absurd h.symm ha
      · rw [bump_cons, if_neg (by simp [h1]), lookup_cons_neg _ _ _ h1,
          lookup_cons_neg _ _ _ h1]
        exact ih h

theorem bump_lookup_other (st : List Row) (k k' : String) (δ : Int)
    (h : k' ≠ k) : lookupVal (bump_counter st k δ) k' = lookupVal st k' := by
  induction st with
  | nil => rfl
  | cons a t ih =>
    by_cases ha : a.1 = k
    · have h1 : (a.1 == k) = true := by simpa using ha
      have h3 : (a.1 == k') = false := by
        simp only [beq_eq_false_iff_ne, ne_eq]
        exact fun e => h (e.symm.trans ha)
      rw [bump_cons, if_pos h1, lookup_cons_neg _ _ _ h3,
        lookup_cons_neg (a.1, a.2 + δ) (bump_counter t k δ) k' h3]
      exact ih
    · have h1 : (a.1 == k) = false := by simpa using ha
      rw [bump_cons, if_neg (by simp [h1])]
      by_cases hc : a.1 = k'
      · have h2 : (a.1 == k') = true := by simpa using hc
        rw [lookup_cons_pos _ _ _ h2, lookup_cons_pos _ _ _ h2]
      · have h2 : (a.1 == k') = false := by simpa using hc
        rw [lookup_cons_neg _ _ _ h2, lookup_cons_neg _ _ _ h2]
        exact ih

theorem bump_mem_mono (st : List Row) (k : String) (δ : Int) (hδ : 0 ≤ δ)
    (r : Row) (hr : r ∈ st) :
    ∃ v, (r.1, v) ∈ bump_counter st k δ ∧ r.2 ≤ v := by
  by_cases h : r.1 = k
  · refine ⟨r.2 + δ, ?_, le_add_of_nonneg_right hδ⟩
    have : (fun x : Row => if x.1 == k then (x.1, x.2 + δ) else x) r = (r.1, r.2 + δ) := by
      simp [h]
    exact this ▸ List.mem_map_of_mem _ hr
  · refine ⟨r.2, ?_, le_refl _⟩
    have hb : (r.1 == k) = false := by simpa using h
    have : (fun x : Row => if x.1 == k then (x.1, x.2 + δ) else x) r = (r.1, r.2) := by
      simp [hb]
    exact this ▸ List.mem_map_of_mem _ hr

theorem bump_nonneg (st : List Row) (k : String) (δ : Int) (hδ : 0 ≤ δ)
    (h : ∀ r ∈ st, 0 ≤ r.2) : ∀ r ∈ bump_counter st k δ, 0 ≤ r.2 := by
  intro r hr
  simp only [bump_counter, List.mem_map] at hr
  obtain ⟨x, hx, hfx⟩ := hr
  by_cases hk : (x.1 == k) = true
  · simp only [hk, if_true] at hfx
    subst hfx
    simpa using add_nonneg (h x hx) hδ
  · simp only [hk, if_false] at hfx
    subst hfx
    exact h x hx

theorem insert_or_ignore_nonneg (st : List Row) (k : String) (v : Int) (hv : 0 ≤ v)
    (h : ∀ r ∈ st, 0 ≤ r.2) : ∀ r ∈ insert_or_ignore st k v, 0 ≤ r.2 := by
  intro r hr
  unfold insert_or_ignore at hr
  split at hr
  · exact h r hr
  · rcases List.mem_append.mp hr with h1 | h1
    · exact h r h1
    · simp only [List.mem_singleton] at h1
      subst h1; exact hv

theorem insert_or_ignore_mem_mono (st : List Row) (k : String) (v : Int)
    (r : Row) (hr : r ∈ st) :
    ∃ w, (r.1, w) ∈ insert_or_ignore st k v ∧ r.2 ≤ w := by
  refine ⟨r.2, ?_, le_refl _⟩
  unfold insert_or_ignore
  split
  · exact hr
  · exact List.mem_append.mpr (Or.inl hr)

theorem start_fst (db : DB) (eu : Option Int) (a : Int)
    (res : Except String Chat) (rh : Nat) (tz : String) :
    (start db eu a res rh tz).1 = db := by
  unfold start
  split
  · rfl
  · cases res <;> rfl

theorem stats_fst (db : DB) (eu : Option Int) (a : Int)
    (f : Except String Int) (t : String) :
    (stats db eu a f t).1 = db := by
  unfold stats
  split
  · rfl
  · cases f <;> rfl

theorem daily_counters (db : DB) (f : Except String Int) (t : String)
    (rh : Nat) (tz : String) :
    ((daily_job db f t rh tz).1).counters = db.counters := by
  unfold daily_job
  cases f <;> rfl

/-! Claim theorems. -/

/-- C1: an update whose sender identity is present and differs from the
configured admin identity makes both the `start` and the `stats` handler
return early: the state is unchanged and the effect trace is empty — no store
read or write, no outbound message. -/
theorem claim_C1_nonadmin_silent (db : DB) (uid adminId : Int)
    (chatRes : Except String Chat) (rh : Nat) (tz : String)
    (fetch : Except String Int) (today : String) (h : uid ≠ adminId) :
    start db (some uid) adminId chatRes rh tz = (db, []) ∧
    stats db (some uid) adminId fetch today = (db, []) := by
  have hg : gate_blocks (some uid) adminId = true := by simp [gate_blocks, h]
  constructor
  · unfold start; rw [hg]; rfl
  · unfold stats; rw [hg]; rfl

theorem claim_C1_witness :
    start ⟨[("2024-06-01", 110)], [("joins", 0), ("leaves", 0)]⟩ (some 5) 7
        (Except.error "boom") 9 "Europe/Berlin" =
      (⟨[("2024-06-01", 110)], [("joins", 0), ("leaves", 0)]⟩, []) ∧
    stats ⟨[("2024-06-01", 110)], [("joins", 0), ("leaves", 0)]⟩ (some 5) 7
        (Except.ok 500) "2024-06-02" =
      (⟨[("2024-06-01", 110)], [("joins", 0), ("leaves", 0)]⟩, []) :=
  claim_C1_nonadmin_silent _ 5 7 _ 9 _ _ _ (by decide)

/-- C9: an update with no sender identity at all does not trip the admin gate
(`update.effective_user and ...` is falsy when `effective_user` is `None`):
both handlers run their full flow, producing exactly the same result as for
the admin caller, and do reply (nonempty effect trace in every branch). -/
theorem claim_C9_missing_user_full_flow (db : DB) (adminId : Int)
    (chatRes : Except String Chat) (rh : Nat) (tz : String)
    (fetch : Except String Int) (today : String) :
    gate_blocks none adminId = false ∧
    start db none adminId chatRes rh tz = start db (some adminId) adminId chatRes rh tz ∧
    stats db none adminId fetch today = stats db (some adminId) adminId fetch today ∧
    (start db none adminId chatRes rh tz).2 ≠ [] ∧
    (stats db none adminId fetch today).2 ≠ [] := by
  have h1 : gate_blocks none adminId = false := rfl
  have h2 : gate_blocks (some adminId) adminId = false := by simp [gate_blocks]
  refine ⟨h1, ?_, ?_, ?_, ?_⟩
  · unfold start; rw [h1, h2]
  · unfold stats; rw [h1, h2]
  · unfold start; rw [h1]
    cases chatRes <;> simp
  · unfold stats; rw [h1]
    cases fetch <;> simp

/-- C10: when the member-count fetch fails during the daily job, the `except`
branch only logs: the returned state is exactly the incoming state (no
snapshot row written, no counter touched) and the trace holds a single log
line — no outbound message — and the error never escapes the job. -/
theorem claim_C10_daily_fetch_error (db : DB) (e today : String)
    (rh : Nat) (tz : String) :
    daily_job db (Except.error e) today rh tz =
      (db, [Effect.logMsg ("Daily job failed: " ++ e)]) := rfl

/-- C4: a strictly positive delta gets the increase glyph and a zero or
negative delta gets the decrease glyph (zero deliberately shares the decrease
glyph), and the daily job's glyph choice agrees with the stats handler's on
every defined delta. -/
theorem claim_C4_sign_glyph (d : Int) :
    (0 < d → sign_glyph d = "➕") ∧
    (d ≤ 0 → sign_glyph d = "➖") ∧
    daily_sign (some d) = sign_glyph d := by
  refine ⟨fun h => by simp [sign_glyph, h], fun h => ?_, ?_⟩
  · simp only [sign_glyph, if_neg (not_lt.mpr h)]
    exact ite_self _
  · simp [daily_sign, sign_glyph]

theorem claim_C4_witness :
    sign_glyph 5 = "➕" ∧ sign_glyph 0 = "➖" ∧ sign_glyph (-3) = "➖" ∧
    daily_sign (some 5) = sign_glyph 5 :=
  ⟨(claim_C4_sign_glyph 5).1 (by decide), (claim_C4_sign_glyph 0).2.1 (by decide),
   (claim_C4_sign_glyph (-3)).2.1 (by decide), (claim_C4_sign_glyph 5).2.2⟩

/-- C3: the stats delta is defined exactly when the most recent row's date
equals the caller-supplied today and a second row exists, in which case it is
today's count minus the previous count; on the two-snapshot store
[(D −1, 110), (D, 120)] with today = D the delta is +10, and on
[(D −1, 110)] alone it is absent. -/
theorem claim_C3_stats_delta :
    (∀ today, stats_delta [] today = none) ∧
    (∀ d c today, stats_delta [(d, c)] today = none) ∧
    (∀ d0 c0 d1 c1 rest today,
      stats_delta ((d0, c0) :: (d1, c1) :: rest) today =
        if d0 == today then some (c0 - c1) else none) ∧
    stats_delta (get_last_two_days [("2024-06-01", 110), ("2024-06-02", 120)])
      "2024-06-02" = some 10 ∧
    stats_delta (get_last_two_days [("2024-06-01", 110)]) "2024-06-02" = none := by
  refine ⟨fun _ => rfl, fun d c t => ?_, fun d0 c0 d1 c1 rest t => ?_,
    by decide, by decide⟩
  · cases h : d == t <;> simp [stats_delta, h]
  · cases h : d0 == t <;> simp [stats_delta, h]

/-- C7: `bump_counter` with a key matching no row is a silent no-op (it
returns normally and the table is unchanged), while with a present key it
adds the delta to that key's value and leaves every other key's value as it
was. -/
theorem claim_C7_bump_counter (st : List Row) (k : String) (δ : Int) :
    (k ∉ st.map Prod.fst → bump_counter st k δ = st) ∧
    (k ∈ st.map Prod.fst →
      lookupVal (bump_counter st k δ) k = lookupVal st k + δ) ∧
    (∀ k', k' ≠ k → lookupVal (bump_counter st k δ) k' = lookupVal st k') :=
  ⟨bump_of_not_mem st k δ, bump_lookup_self st k δ,
   fun k' h => bump_lookup_other st k k' δ h⟩

theorem claim_C7_witness :
    bump_counter [("joins", 2), ("leaves", 3)] "typo" 1 = [("joins", 2), ("leaves", 3)] ∧
    lookupVal (bump_counter [("joins", 2), ("leaves", 3)] "joins" 1) "joins" = 3 ∧
    lookupVal (bump_counter [("joins", 2), ("leaves", 3)] "joins" 1) "leaves" = 3 := by
  refine ⟨(claim_C7_bump_counter [("joins", 2), ("leaves", 3)] "typo" 1).1 (by decide), ?_, ?_⟩
  · rw [(claim_C7_bump_counter [("joins", 2), ("leaves", 3)] "joins" 1).2.1 (by decide)]
    decide
  · rw [(claim_C7_bump_counter [("joins", 2), ("leaves", 3)] "joins" 1).2.2 "leaves" (by decide)]
    decide

/-- C6: upserting the same date twice leaves the store with exactly one row
for that date, holding the second count, and the rows of every other date
unchanged. -/
theorem claim_C6_upsert_overwrite (st : List Row) (d : String) (c1 c2 : Int) :
    (set_daily_count (set_daily_count st d c1) d c2).filter (fun r => r.1 == d) =
      [(d, c2)] ∧
    (set_daily_count (set_daily_count st d c1) d c2).filter (fun r => r.1 != d) =
      st.filter (fun r => r.1 != d) := by
  have hfalse : ∀ r : Row, ((r.1 != d) && (r.1 == d)) = false := by
    intro r; cases h : r.1 == d <;> simp [bne, h]
  have htrue : ∀ r : Row, ((r.1 != d) && (r.1 != d)) = (r.1 != d) := by
    intro r; exact Bool.and_self _
  constructor
  · simp only [set_daily_count, List.filter_append, List.filter_filter, hfalse]
    simp [List.filter_eq_nil_iff, hfalse]
  · simp only [set_daily_count, List.filter_append, List.filter_filter, htrue]
    simp [bne]

theorem listener_counters (db : DB) (o n : String) :
    (on_chat_member db (some (o, n))).counters =
      if is_leave o n then
        bump_counter
          (if is_join o n then bump_counter db.counters "joins" 1 else db.counters)
          "leaves" 1
      else
        (if is_join o n then bump_counter db.counters "joins" 1 else db.counters) := rfl

/-- C2: per membership notification the listener bumps `joins` by one on a
(left|kicked) → (member|administrator) transition, bumps `leaves` by one on
the reverse transition, does nothing otherwise, and the two conditions can
never hold together, so never both counters move. -/
theorem claim_C2_transition_table (db : DB) (oldS newS : String)
    (hj : "joins" ∈ db.counters.map Prod.fst)
    (hl : "leaves" ∈ db.counters.map Prod.fst) :
    ¬(is_join oldS newS = true ∧ is_leave oldS newS = true) ∧
    (is_join oldS newS = true →
      lookupVal (on_chat_member db (some (oldS, newS))).counters "joins" =
        lookupVal db.counters "joins" + 1 ∧
      lookupVal (on_chat_member db (some (oldS, newS))).counters "leaves" =
        lookupVal db.counters "leaves") ∧
    (is_leave oldS newS = true →
      lookupVal (on_chat_member db (some (oldS, newS))).counters "leaves" =
        lookupVal db.counters "leaves" + 1 ∧
      lookupVal (on_chat_member db (some (oldS, newS))).counters "joins" =
        lookupVal db.counters "joins") ∧
    (is_join oldS newS = false → is_leave oldS newS = false →
      (on_chat_member db (some (oldS, newS))).counters = db.counters) := by
  have hex : ¬(is_join oldS newS = true ∧ is_leave oldS newS = true) := by
    rintro ⟨h1, h2⟩
    simp only [is_join, is_leave, Bool.and_eq_true, Bool.or_eq_true, beq_iff_eq] at h1 h2
    rcases h1.1 with h | h <;> rcases h2.1 with h' | h' <;> rw [h] at h' <;>
      exact absurd h' (by decide)
  refine ⟨hex, fun h => ?_, fun h => ?_, fun h1 h2 => ?_⟩
  · have hle : is_leave oldS newS = false := by
      cases hx : is_leave oldS newS
      · rfl
      · exact absurd ⟨h, hx⟩ hex
    have hc : (on_chat_member db (some (oldS, newS))).counters =
        bump_counter db.counters "joins" 1 := by
      rw [listener_counters, h, hle]; simp
    rw [hc]
    exact ⟨bump_lookup_self _ _ _ hj, bump_lookup_other _ _ _ _ (by decide)⟩
  · have hjo : is_join oldS newS = false := by
      cases hx : is_join oldS newS
      · rfl
      · exact absurd ⟨hx, h⟩ hex
    have hc : (on_chat_member db (some (oldS, newS))).counters =
        bump_counter db.counters "leaves" 1 := by
      rw [listener_counters, h, hjo]; simp
    rw [hc]
    exact ⟨bump_lookup_self _ _ _ hl, bump_lookup_other _ _ _ _ (by decide)⟩
  · rw [listener_counters, h1, h2]; simp

theorem claim_C2_witness :
    lookupVal (on_chat_member ⟨[], [("joins", 4), ("leaves", 7)]⟩
      (some ("left", "member"))).counters "joins" = 5 ∧
    lookupVal (on_chat_member ⟨[], [("joins", 4), ("leaves", 7)]⟩
      (some ("left", "member"))).counters "leaves" = 7 := by
  have h := (claim_C2_transition_table ⟨[], [("joins", 4), ("leaves", 7)]⟩
    "left" "member" (by decide) (by decide)).2.1 (by decide)
  exact ⟨by rw [h.1]; decide, by rw [h.2]; decide⟩

/-- C5: `get_last_two_days` returns nothing on an empty store, the single row
on a one-row store, and on a store of two or more rows exactly two rows in
descending date order — the two most recent: every remaining row's date is at
most the second returned date. -/
theorem claim_C5_last_two (st : List Row) :
    get_last_two_days ([] : List Row) = [] ∧
    (∀ r : Row, get_last_two_days [r] = [r]) ∧
    (2 ≤ st.length →
      ∃ a b rest, get_last_two_days st = [a, b] ∧ dateDesc a b ∧
        st.Perm (a :: b :: rest) ∧ ∀ r ∈ rest, dateDesc b r) := by
  refine ⟨rfl, fun r => rfl, fun hlen => ?_⟩
  haveI : IsTotal Row dateDesc := ⟨dateDesc_total⟩
  haveI : IsTrans Row dateDesc := ⟨dateDesc_trans⟩
  have hsort : (st.insertionSort dateDesc).Sorted dateDesc :=
    List.sorted_insertionSort dateDesc st
  have hperm : (st.insertionSort dateDesc).Perm st := List.perm_insertionSort dateDesc st
  have hl : (st.insertionSort dateDesc).length = st.length := hperm.length_eq
  cases ht : st.insertionSort dateDesc with
  | nil => rw [ht] at hl; simp at hl; omega
  | cons a t' =>
    cases t' with
    | nil => rw [ht] at hl; simp at hl; omega
    | cons b rest =>
      rw [ht] at hsort hperm
      rw [List.sorted_cons] at hsort
      refine ⟨a, b, rest, ?_, hsort.1 b (List.mem_cons_self _ _), hperm.symm, ?_⟩
      · unfold get_last_two_days
        rw [ht]
        rfl
      · intro r hr
        exact (List.sorted_cons.mp hsort.2).1 r hr

theorem claim_C5_witness :
    ∃ a b rest,
      get_last_two_days [("2024-06-01", 110), ("2024-06-03", 130), ("2024-06-02", 120)] =
        [a, b] ∧
      dateDesc a b ∧
      ([("2024-06-01", 110), ("2024-06-03", 130), ("2024-06-02", 120)] : List Row).Perm
        (a :: b :: rest) ∧
      ∀ r ∈ rest, dateDesc b r :=
  (claim_C5_last_two
    [("2024-06-01", 110), ("2024-06-03", 130), ("2024-06-02", 120)]).2.2 (by decide)

/-- C8: starting from any counters table whose values are all non-negative,
every system operation (startup initialization, a chat-member notification,
a `start` or `stats` command, a daily-job firing) keeps all values
non-negative and never decreases the value held under any existing key. -/
theorem claim_C8_counters_monotone (adminId : Int) (rh : Nat) (tz : String)
    (db : DB) (op : Op) (h : ∀ r ∈ db.counters, 0 ≤ r.2) :
    (∀ r ∈ (applyOp adminId rh tz db op).counters, 0 ≤ r.2) ∧
    (∀ r ∈ db.counters,
      ∃ v, (r.1, v) ∈ (applyOp adminId rh tz db op).counters ∧ r.2 ≤ v) := by
  cases op with
  | initOp =>
    constructor
    · intro r hr
      simp only [applyOp, init_counters] at hr
      exact insert_or_ignore_nonneg _ _ _ (le_refl 0)
        (insert_or_ignore_nonneg _ _ _ (le_refl 0) h) r hr
    · intro r hr
      obtain ⟨w1, hw1, hle1⟩ := insert_or_ignore_mem_mono db.counters "joins" 0 r hr
      obtain ⟨w2, hw2, hle2⟩ :=
        insert_or_ignore_mem_mono (insert_or_ignore db.counters "joins" 0) "leaves" 0
          (r.1, w1) hw1
      exact ⟨w2, hw2, le_trans hle1 hle2⟩
  | chatMemberOp cm =>
    cases cm with
    | none =>
      exact ⟨h, fun r hr => ⟨r.2, by simpa using hr, le_refl _⟩⟩
    | some p =>
      obtain ⟨o, n⟩ := p
      have hstep : ∀ (c : List Row) (b : Bool) (k : String),
          (∀ r ∈ c, 0 ≤ r.2) →
          (∀ r ∈ (if b then bump_counter c k 1 else c), 0 ≤ r.2) ∧
          (∀ r ∈ c, ∃ v, (r.1, v) ∈ (if b then bump_counter c k 1 else c) ∧ r.2 ≤ v) := by
        intro c b k hc
        cases b
        · exact ⟨hc, fun r hr => ⟨r.2, by simpa using hr, le_refl _⟩⟩
        · exact ⟨bump_nonneg c k 1 (by norm_num) hc,
            fun r hr => bump_mem_mono c k 1 (by norm_num) r hr⟩
      have h1 := hstep db.counters (is_join o n) "joins" h
      have h2 := hstep (if is_join o n then bump_counter db.counters "joins" 1 else db.counters)
        (is_leave o n) "leaves" h1.1
      have hc : (applyOp adminId rh tz db (.chatMemberOp (some (o, n)))).counters =
          (if is_leave o n then
            bump_counter
              (if is_join o n then bump_counter db.counters "joins" 1 else db.counters)
              "leaves" 1
          else
            (if is_join o n then bump_counter db.counters "joins" 1 else db.counters)) :=
        listener_counters db o n
    -- combine the two steps
      rw [hc]
      refine ⟨h2.1, fun r hr => ?_⟩
      obtain ⟨v1, hv1, hle1⟩ := h1.2 r hr
      obtain ⟨v2, hv2, hle2⟩ := h2.2 (r.1, v1) hv1
      exact ⟨v2, hv2, le_trans hle1 hle2⟩
  | startOp eu res =>
    have hc : (applyOp adminId rh tz db (.startOp eu res)).counters = db.counters := by
      simp [applyOp, start_fst]
    rw [hc]
    exact ⟨h, fun r hr => ⟨r.2, by simpa using hr, le_refl _⟩⟩
  | statsOp eu f t =>
    have hc : (applyOp adminId rh tz db (.statsOp eu f t)).counters = db.counters := by
      simp [applyOp, stats_fst]
    rw [hc]
    exact ⟨h, fun r hr => ⟨r.2, by simpa using hr, le_refl _⟩⟩
  | dailyOp f t =>
    have hc : (applyOp adminId rh tz db (.dailyOp f t)).counters = db.counters := by
      simp [applyOp, daily_counters]
    rw [hc]
    exact ⟨h, fun r hr => ⟨r.2, by simpa using hr, le_refl _⟩⟩

theorem claim_C8_witness :
    (∀ r ∈ (applyOp 7 9 "Europe/Berlin" ⟨[], [("joins", 0), ("leaves", 0)]⟩
        (Op.chatMemberOp (some ("left", "member")))).counters, 0 ≤ r.2) ∧
    (∀ r ∈ ([("joins", 0), ("leaves", 0)] : List Row),
      ∃ v, (r.1, v) ∈ (applyOp 7 9 "Europe/Berlin" ⟨[], [("joins", 0), ("leaves", 0)]⟩
        (Op.chatMemberOp (some ("left", "member")))).counters ∧ r.2 ≤ v) :=
  claim_C8_counters_monotone 7 9 "Europe/Berlin" ⟨[], [("joins", 0), ("leaves", 0)]⟩
    (Op.chatMemberOp (some ("left", "member"))) (by decide)

end PresenceBot
